import Mathlib

set_option maxRecDepth 40000

/-
Verification of the process and file subsystem of an educational
OS/161-style kernel (PID table, open-file table, fd tables, and the
fork / exec / wait / dup2 / lseek / close syscall paths).

The Lean definitions below are a shallow embedding of the C sources:
  kern/thread/pid.c, kern/syscall/proc_syscalls.c, kern/syscall/file.c,
  kern/syscall/file_syscalls.c, kern/syscall/execv.c.
Locks and condition variables only serialize access in the C code; the
embedding works on the state they protect, so they are dropped.  A
`none` result (or the dedicated constructor noted at each definition)
marks undefined behaviour of the C code: dereferencing a null or freed
pointer, or indexing an array out of bounds.
-/

/- ------------------------------------------------------------------ -/
/- Constants                                                          -/
/- ------------------------------------------------------------------ -/

/-- Modelled from the spec: kern/limits.h is not under src/.  The spec
says `OPEN_MAX` is at least 64; the customary OS/161 value 128 is used.
No theorem below depends on the particular value. -/
def OPEN_MAX : Nat := 128

/-- Sentinel for a closed fd-table entry (file.h: `FILE_CLOSED`). -/
def FILE_CLOSED : Int := -1

/-- Modelled from the spec: kern/limits.h is not under src/.  The spec
says `PID_MIN` is typically 2. -/
def PID_MIN : Nat := 2

/-- Modelled from the spec: kern/limits.h is not under src/.  The spec
says the table is small, `PID_MAX` typically at most 256. -/
def PID_MAX : Nat := 255

/-- pid.h: `#define PID_INVALID 0xcafebabe`; stored into the `pid_t`
(32-bit int) field `ppid_id`, where it reads back as this negative
value on two's-complement hardware. -/
def PID_INVALID : Int := 3405691582 - 4294967296

/-- Modelled from the spec: kern/errno.h is not under src/; the spec
only says errors are small positive integers, so distinct arbitrary
values are used. -/
def ENOMEM : Int := 1

def EINVAL : Int := 2

def EBADF : Int := 3

def ESPIPE : Int := 4

def ESRCH : Int := 5

def ECHILD : Int := 6

def EMFILE : Int := 7

/-- Modelled from the spec: kern/seek.h is not under src/; the spec says
the whence values are distinct small integers (POSIX uses 0, 1, 2). -/
def SEEK_SET : Int := 0

def SEEK_CUR : Int := 1

def SEEK_END : Int := 2

/- ------------------------------------------------------------------ -/
/- List helper lemmas                                                 -/
/- ------------------------------------------------------------------ -/

theorem listGetSetSame : ∀ (l : List α) (i : Nat) (x : α), i < l.length →
    (l.set i x).get? i = some x := by
  intro l
  induction l with
  | nil => intro i x h; simp at h
  | cons a t ih =>
    intro i x h
    cases i with
    | zero => simp [List.set]
    | succ j =>
      simp only [List.set, List.get?]
      exact ih j x (Nat.lt_of_succ_lt_succ h)

theorem listGetSetOther : ∀ (l : List α) (i j : Nat) (x : α), i ≠ j →
    (l.set i x).get? j = l.get? j := by
  intro l
  induction l with
  | nil => intro i j x _; simp [List.set]
  | cons a t ih =>
    intro i j x hne
    cases i with
    | zero =>
      cases j with
      | zero => exact absurd rfl hne
      | succ k => simp [List.set]
    | succ i' =>
      cases j with
      | zero => simp [List.set]
      | succ k =>
        simp only [List.set, List.get?]
        exact ih i' k x (fun h => hne (by rw [h]))

theorem listSetOfGet : ∀ (l : List α) (i : Nat) (x : α),
    l.get? i = some x → l.set i x = l := by
  intro l
  induction l with
  | nil => intro i x h; simp at h
  | cons a t ih =>
    intro i x h
    cases i with
    | zero => simp at h; simp [List.set, h]
    | succ j =>
      simp only [List.get?] at h
      simp [List.set, ih j x h]

theorem listSetSetSame : ∀ (l : List α) (i : Nat) (x y : α),
    (l.set i x).set i y = l.set i y := by
  intro l
  induction l with
  | nil => intro i x y; simp [List.set]
  | cons a t ih =>
    intro i x y
    cases i with
    | zero => simp [List.set]
    | succ j => simp [List.set, ih]

theorem listSetLength : ∀ (l : List α) (i : Nat) (x : α),
    (l.set i x).length = l.length := by
  intro l
  induction l with
  | nil => intro i x; simp
  | cons a t ih =>
    intro i x
    cases i with
    | zero => simp [List.set]
    | succ j => simp [List.set, ih]

/- ------------------------------------------------------------------ -/
/- PID table (kern/thread/pid.c)                                      -/
/- ------------------------------------------------------------------ -/

/-- pid.h: `struct proc_pid`.  The condition variable `pid_cv` carries
no state beyond the lock discipline and is not represented. -/
structure PidEntry where
  pid_id : Int
  ppid_id : Int
  pid_estatus : Int
  pid_exited : Bool
  deriving Repr, DecidableEq

/-- The global `pid_table` array of `PID_MAX + 1` slots, each NULL or a
pointer to a `proc_pid` (pid.c, `pid_table`). -/
structure PidState where
  table : List (Option PidEntry)
  deriving Repr, DecidableEq

/-- The scanning loop of `pid_next` (pid.c lines 140-148): starting at
index `i`, return the first index whose slot is NULL, examining `fuel`
consecutive indices.  Reading past the end of the table would be an
out-of-bounds access in C; every state below has a full-length table,
where the `none` branch of `get?` is unreachable within the sweep. -/
def scanEmpty (t : List (Option PidEntry)) : Nat → Nat → Option Nat
  | _, 0 => none
  | i, fuel + 1 =>
    match t.get? i with
    | none => none
    | some none => some i
    | some (some _) => scanEmpty t (i + 1) fuel

/-- pid.c `pid_next()`: scan `i = PID_MIN .. PID_MAX` for the first NULL
slot; `-1` if none.  There is no rolling cursor and occupied zombie
slots are never considered. -/
def pid_next (s : PidState) : Int :=
  match scanEmpty s.table PID_MIN (PID_MAX - PID_MIN + 1) with
  | some i => (i : Int)
  | none => -1

/-- pid.c `pid_create(ppid)`: take the next free pid; on `-1` give up,
otherwise install a fresh entry with `ppid_id = ppid`, `pid_estatus = 0`
and `pid_exited = 0` in that slot. -/
def pid_create (s : PidState) (ppid : Int) : Int × PidState :=
  let pid := pid_next s
  if pid = -1 then (-1, s)
  else (pid, ⟨s.table.set pid.toNat (some ⟨pid, ppid, 0, false⟩)⟩)

/-- Result of `pid_wait`.  `ub` marks undefined behaviour (out-of-bounds
table read); `blocks` marks the `cv_wait` suspension taken when the
target has not exited yet (pid.c line 193). -/
inductive WRes where
  | ub : WRes
  | blocks : WRes
  | ret : Int → Option Int → PidState → WRes
  deriving Repr, DecidableEq

/-- pid.c `pid_wait(pid, ppid, exit_status)`: NULL slot gives `ESRCH`;
foreign parent gives `ECHILD`; a live, exited child has its parent field
invalidated, its status copied out, and is then destroyed by
`pid_destroy` (slot nulled, entry freed) before 0 is returned. -/
def pid_wait (s : PidState) (pid : Nat) (ppid : Int) : WRes :=
  match s.table.get? pid with
  | none => WRes.ub
  | some none => WRes.ret ESRCH none s
  | some (some pp) =>
    if pp.ppid_id ≠ ppid then WRes.ret ECHILD none s
    else if pp.pid_exited = false then WRes.blocks
    else WRes.ret 0 (some pp.pid_estatus) ⟨s.table.set pid none⟩

/-- pid.c `pid_exit(pid, exit_status)`: reads `pid_table[pid]` and
immediately writes through the pointer with no NULL check, so an empty
slot is a NULL dereference (`none`).  On a live slot it marks the entry
exited and stores the status; the entry itself is kept (the subsequent
teardown destroys the file table, process and thread, not this slot). -/
def pid_exit (s : PidState) (pid : Nat) (status : Int) : Option PidState :=
  match s.table.get? pid with
  | none => none
  | some none => none
  | some (some pp) =>
    some ⟨s.table.set pid
      (some { pp with pid_exited := true, pid_estatus := status })⟩

/- ------------------------------------------------------------------ -/
/- fork (kern/syscall/proc_syscalls.c)                                -/
/- ------------------------------------------------------------------ -/

/-- mips/trapframe.h is external; only the return-value register
`tf_v0` is distinguished, `tf_rest` abstracting the other saved
registers, which struct assignment copies unchanged. -/
structure Trapframe where
  tf_v0 : Int
  tf_rest : Nat
  deriving Repr, DecidableEq

/-- proc_syscalls.c `child_execute(tf, pid)`: copy the passed trapframe,
set its return-value register `tf_v0` to the passed pid value, and hand
the result to `enter_forked_process`.  The returned trapframe is the
one entering user mode. -/
def child_execute (tf : Trapframe) (pid : Nat) : Trapframe :=
  { tf with tf_v0 := (pid : Int) }

/-- Modelled from the spec: `proc_create_runprogram` lives in proc.c,
which is not under src/.  Per the spec's fork step "Create a new process
object (including a fresh PID via PidTable::create(parent=current_pid))",
it allocates the child's pid with `pid_create` and fails (NULL) when the
allocation fails. -/
def proc_create_runprogram (ps : PidState) (parent : Int) :
    Option (Nat × PidState) :=
  let r := pid_create ps parent
  if r.1 < 0 then none else some (r.1.toNat, r.2)

/-- proc_syscalls.c `sys_fork(tf, pid)`: duplicate the trapframe, copy
the address space, create the child process (fresh pid), then
`thread_fork("new forked process", new_proc, child_execute, tf_child, 0)`
— the literal 0 becomes `child_execute`'s pid argument — and report
`new_proc->p_pid` to the parent.  The result is
(parent's return value, trapframe the child enters user mode with,
pid table after the fork); `none` is the resource-failure path. -/
def sys_fork (tf : Trapframe) (ps : PidState) (curpid : Int) :
    Option (Int × Trapframe × PidState) :=
  let tf_child := tf
  match proc_create_runprogram ps curpid with
  | none => none
  | some (childPid, ps') =>
    some (Int.ofNat childPid, child_execute tf_child 0, ps')

/- ------------------------------------------------------------------ -/
/- Open-file subsystem (kern/syscall/file.c, file_syscalls.c)         -/
/- ------------------------------------------------------------------ -/

/-- The VFS vnode is external (spec section 1); only the facets the
syscall layer consults are kept: an identity for tracking `vfs_close`
calls, the `VOP_ISSEEKABLE` answer, and the `VOP_STAT` outcome
(`statErr = none` and `size` on success, `statErr = some e` on error). -/
structure Vnode where
  id : Nat
  seekable : Bool
  size : Int
  statErr : Option Int
  deriving Repr, DecidableEq

/-- file.h `struct open_file`.  The per-file lock `fl` carries no state
and is dropped.  `os` is declared `int` in the header: it holds 32-bit
values (see `toInt32`). -/
structure OpenFile where
  vn : Vnode
  am : Int
  rc : Int
  os : Int
  deriving Repr, DecidableEq

/-- The file-subsystem state: `heap` is the kernel heap of `open_file`
allocations (a freed cell becomes `none` while pointers to it may
linger); `openfiles` is the global `of_t->openfiles` array of NULL or
pointers into the heap; `fdts` holds each process's
`fd_t->fd_entries` array (`FILE_CLOSED` or an `openfiles` index);
`closed` records the vnode ids passed to `vfs_close`, in order. -/
structure FileState where
  heap : List (Option OpenFile)
  openfiles : List (Option Nat)
  fdts : List (List Int)
  closed : List Nat
  deriving Repr, DecidableEq

/-- Truncation of a mathematical integer to a 32-bit two's-complement
`int`, as happens when an `off_t` value is stored into the `int os`
field of `struct open_file`. -/
def toInt32 (n : Int) : Int := (n + 2 ^ 31) % 2 ^ 32 - 2 ^ 31

/-- file.c `file_close(fd)` for process `p`.  Out-of-range fd is
`EBADF`; a `FILE_CLOSED` (or negative, or above-`OPEN_MAX`) entry is
`EBADF`; an entry equal to `OPEN_MAX` slips past the `> OPEN_MAX` test
and indexes out of bounds (UB).  A NULL `openfiles` slot is `EBADF`.
Otherwise the fd entry is cleared and then: refcount 1 means
`vfs_close` the vnode and free the entry — the `openfiles` slot is NOT
reset to NULL by the source — else the refcount is decremented.
Reading a freed entry's refcount is use-after-free (UB, `none`).
The lock bookkeeping (`lock_do_i_hold`, `calledFromSys`) has no effect
on this state and is dropped. -/
def file_close (s : FileState) (p : Nat) (fd : Int) : Option (Int × FileState) :=
  if fd < 0 ∨ (OPEN_MAX : Int) ≤ fd then some (EBADF, s)
  else
    match s.fdts.get? p with
    | none => none
    | some t =>
      match t.get? fd.toNat with
      | none => none
      | some of_entry =>
        if of_entry < 0 ∨ of_entry > (OPEN_MAX : Int) then some (EBADF, s)
        else if of_entry = (OPEN_MAX : Int) then none
        else
          match s.openfiles.get? of_entry.toNat with
          | none => none
          | some none => some (EBADF, s)
          | some (some ptr) =>
            match s.heap.get? ptr with
            | none => none
            | some none => none
            | some (some f) =>
              let s1 : FileState :=
                { s with fdts := s.fdts.set p (t.set fd.toNat FILE_CLOSED) }
              if f.rc = 1 then
                some (0, { s1 with closed := s1.closed ++ [f.vn.id],
                                   heap := s1.heap.set ptr none })
              else
                some (0, { s1 with
                  heap := s1.heap.set ptr (some { f with rc := f.rc - 1 }) })

/-- file_syscalls.c `sys_dup2(oldfd, newfd, fd_ret)` for process `p`.
Both fds range-checked (`EBADF`, `fd_ret` untouched); then
`*fd_ret = newfd`; equal fds return success immediately; a closed
`oldfd` is `EBADF`.  Otherwise the referenced open file's refcount is
incremented (NULL or dangling pointer would be UB), `file_close(newfd)`
runs first when `newfd` is open (its return value is ignored by the
source), and finally `fd_entries[newfd] = fd_entries[oldfd]`
(re-reading `oldfd`'s entry).  Result: (errno, value stored through
`fd_ret` if any, state). -/
def sys_dup2 (s : FileState) (p : Nat) (oldfd newfd : Int) :
    Option (Int × Option Int × FileState) :=
  if oldfd < 0 ∨ (OPEN_MAX : Int) ≤ oldfd ∨ newfd < 0 ∨ (OPEN_MAX : Int) ≤ newfd then
    some (EBADF, none, s)
  else
    if oldfd = newfd then some (0, some newfd, s)
    else
      match s.fdts.get? p with
      | none => none
      | some t =>
        match t.get? oldfd.toNat, t.get? newfd.toNat with
        | none, _ => none
        | _, none => none
        | some old_of, some new_of =>
          if old_of = FILE_CLOSED then some (EBADF, some newfd, s)
          else
            match (if old_of < 0 ∨ (OPEN_MAX : Int) ≤ old_of then none
                   else s.openfiles.get? old_of.toNat) with
            | none => none
            | some none => none
            | some (some ptr) =>
              match s.heap.get? ptr with
              | none => none
              | some none => none
              | some (some f) =>
                let s1 : FileState :=
                  { s with heap := s.heap.set ptr (some { f with rc := f.rc + 1 }) }
                let step : Option FileState :=
                  if new_of ≠ FILE_CLOSED then
                    match file_close s1 p newfd with
                    | none => none
                    | some (_, s2) => some s2
                  else some s1
                match step with
                | none => none
                | some s2 =>
                  match s2.fdts.get? p with
                  | none => none
                  | some t2 =>
                    match t2.get? oldfd.toNat with
                    | none => none
                    | some old2 =>
                      some (0, some newfd,
                        { s2 with fdts := s2.fdts.set p (t2.set newfd.toNat old2) })

/-- file_syscalls.c `sys_lseek(fd, pos, whence, npos)` for process `p`.
Order of checks as in the source: fd range (`EBADF`), whence validity
(`EINVAL`), `FILE_CLOSED` entry (`EBADF`).  The `openfiles` slot is then
dereferenced with no NULL check (UB on NULL or dangling).  Unseekable
vnode is `ESPIPE`; a `VOP_STAT` failure on `SEEK_END` is returned
verbatim with the offset untouched.  The new offset is stored into the
32-bit `int os` field (`toInt32`); if the stored value is negative the
prior offset is restored and `EINVAL` returned, else the new offset is
reported through `npos`.  Result: (errno, value stored through `npos`
if any, state). -/
def sys_lseek (s : FileState) (p : Nat) (fd pos whence : Int) :
    Option (Int × Option Int × FileState) :=
  if fd < 0 ∨ (OPEN_MAX : Int) ≤ fd then some (EBADF, none, s)
  else if whence ≠ SEEK_SET ∧ whence ≠ SEEK_CUR ∧ whence ≠ SEEK_END then
    some (EINVAL, none, s)
  else
    match s.fdts.get? p with
    | none => none
    | some t =>
      match t.get? fd.toNat with
      | none => none
      | some of_index =>
        if of_index = FILE_CLOSED then some (EBADF, none, s)
        else if of_index < 0 ∨ (OPEN_MAX : Int) ≤ of_index then none
        else
          match s.openfiles.get? of_index.toNat with
          | none => none
          | some none => none
          | some (some ptr) =>
            match s.heap.get? ptr with
            | none => none
            | some none => none
            | some (some f) =>
              if f.vn.seekable = false then some (ESPIPE, none, s)
              else
                match (if whence = SEEK_END then f.vn.statErr else none) with
                | some e => some (e, none, s)
                | none =>
                  let os' : Int :=
                    if whence = SEEK_SET then toInt32 pos
                    else if whence = SEEK_CUR then toInt32 (f.os + pos)
                    else toInt32 (pos + f.vn.size)
                  if os' < 0 then some (EINVAL, none, s)
                  else
                    some (0, some os',
                      { s with heap := s.heap.set ptr (some { f with os := os' }) })

/-- proc_syscalls.c `sys_fork` lines 119-121: the child's fd table is a
fresh allocation filled by plain struct assignment
`*(new_proc->fd_t) = *curproc->fd_t` — the entries are copied verbatim
and no open-file refcount is touched. -/
def sys_fork_fdcopy (s : FileState) (parent : Nat) : FileState :=
  { s with fdts := s.fdts ++ [s.fdts.getD parent []] }

/-- Number of non-`FILE_CLOSED` fd-table entries, across every process,
that hold the open-file-table index `slot`. -/
def fdRefsTo (s : FileState) (slot : Nat) : Nat :=
  (s.fdts.map (fun t => (t.filter (fun e => e = Int.ofNat slot)).length)).sum

/-- The spec's refcount invariant (section 8): every live open file's
`rc` equals the number of fd-table entries pointing at its slot. -/
def refcountOk (s : FileState) : Bool :=
  (List.range s.openfiles.length).all fun slot =>
    match s.openfiles.getD slot none with
    | none => true
    | some ptr =>
      match s.heap.getD ptr none with
      | none => true
      | some f => f.rc = Int.ofNat (fdRefsTo s slot)

/- ------------------------------------------------------------------ -/
/- execv argv serialization (kern/syscall/execv.c)                    -/
/- ------------------------------------------------------------------ -/

/-- A single store into user memory performed by the exec path: a
`copyoutstr` byte or a 4-byte `copyout` word. -/
inductive MemWrite where
  | byte : Nat → Nat → MemWrite
  | word : Nat → Nat → MemWrite
  deriving Repr, DecidableEq

/-- Byte stores of `copyoutstr` laid out from address `a` upward. -/
def writeBytes : Nat → List Nat → List MemWrite
  | _, [] => []
  | a, b :: bs => MemWrite.byte a b :: writeBytes (a + 1) bs

/-- execv.c lines 212-236: for `i = argc-1` down to `0`, drop the stack
pointer by `strlen+1`, record it as `userland_argvp[i]`, and copy the
string (with its NUL) out at that address.  The argument list is passed
here already reversed (index `argc-1` first); the returned pointer list
keeps that order. -/
def pushStrings : List (List Nat) → Nat → List MemWrite × List Nat × Nat
  | [], sp => ([], [], sp)
  | a :: rest, sp =>
    let spA := sp - (a.length + 1)
    let r := pushStrings rest spA
    (writeBytes spA (a ++ [0]) ++ r.1, spA :: r.2.1, r.2.2)

/-- execv.c lines 257-272: for `i = argc-1` down to `0`, store
`userland_argvp[i]` as a word at the stack pointer, then drop the stack
pointer by 4.  The pointer list arrives with index `argc-1` first,
mirroring the loop. -/
def pushPtrs : List Nat → Nat → List MemWrite × Nat
  | [], sp => ([], sp)
  | q :: rest, sp =>
    let r := pushPtrs rest (sp - 4)
    (MemWrite.word sp q :: r.1, r.2)

/-- execv.c lines 201-290, the argv serialization of `sys_execv` after
`as_define_stack` returned `sp0`, with the argument strings already
copied into kernel buffers: push a null word; push the strings in
reverse order recording their addresses; drop the stack pointer by 4
and round it down to a 4-byte boundary; push the argv-terminating null
word; push the recorded string addresses in reverse order; the user's
`argv` is the final stack pointer plus 4, and the stack pointer handed
to `enter_new_process` sits one further word down.  Returns
(stores performed, argc, argv pointer, final stack pointer). -/
def sys_execv_stack (args : List (List Nat)) (sp0 : Nat) :
    List MemWrite × Nat × Nat × Nat :=
  let argc := args.length
  let sp1 := sp0 - 4
  let strs := pushStrings args.reverse sp1
  let sp2 := strs.2.2
  let sp3 := sp2 - 4
  let sp4 := if sp3 % 4 ≠ 0 then sp3 - sp3 % 4 else sp3
  let sp5 := sp4 - 4
  let ptrs := pushPtrs strs.2.1 sp5
  let sp6 := ptrs.2
  let argvPtr := sp6 + 4
  let sp7 := sp6 - 4
  (MemWrite.word sp1 0 :: strs.1 ++ MemWrite.word sp4 0 :: ptrs.1,
   argc, argvPtr, sp7)

/-- Value of the last byte store at address `a`, if any. -/
def lookupByte (ws : List MemWrite) (a : Nat) : Option Nat :=
  ws.reverse.findSome? fun w =>
    match w with
    | MemWrite.byte a2 v => if a2 = a then some v else none
    | MemWrite.word _ _ => none

/-- Value of the last word store at address `a`, if any. -/
def lookupWord (ws : List MemWrite) (a : Nat) : Option Nat :=
  ws.reverse.findSome? fun w =>
    match w with
    | MemWrite.word a2 v => if a2 = a then some v else none
    | MemWrite.byte _ _ => none


/- ------------------------------------------------------------------ -/
/- Scan lemmas for the pid allocator                                  -/
/- ------------------------------------------------------------------ -/

theorem listGetOfLt : ∀ (l : List α) (i : Nat), i < l.length →
    ∃ x, l.get? i = some x := by
  intro l
  induction l with
  | nil => intro i h; simp at h
  | cons a t ih =>
    intro i h
    cases i with
    | zero => exact ⟨a, rfl⟩
    | succ j => exact ih j (Nat.lt_of_succ_lt_succ h)

theorem listGetSomeLt : ∀ (l : List α) (i : Nat) (x : α),
    l.get? i = some x → i < l.length := by
  intro l
  induction l with
  | nil => intro i x h; simp [List.get?] at h
  | cons a t ih =>
    intro i x h
    cases i with
    | zero => simp
    | succ j =>
      simp only [List.get?] at h
      exact Nat.succ_lt_succ (ih j x h)

theorem scanEmptySome (t : List (Option PidEntry)) :
    ∀ (fuel i j : Nat), scanEmpty t i fuel = some j →
      i ≤ j ∧ j < i + fuel ∧ t.get? j = some none ∧
      ∀ k, i ≤ k → k < j → t.get? k ≠ some none := by
  intro fuel
  induction fuel with
  | zero => intro i j h; simp [scanEmpty] at h
  | succ n ih =>
    intro i j h
    simp only [scanEmpty] at h
    cases hg : t.get? i with
    | none => rw [hg] at h; exact absurd h (by simp)
    | some o =>
      cases o with
      | none =>
        rw [hg] at h
        simp at h
        subst h
        refine ⟨Nat.le_refl i, by omega, hg, ?_⟩
        intro k hk1 hk2
        omega
      | some e =>
        rw [hg] at h
        obtain ⟨h1, h2, h3, h4⟩ := ih (i + 1) j h
        refine ⟨by omega, by omega, h3, ?_⟩
        intro k hk1 hk2
        rcases Nat.eq_or_lt_of_le hk1 with heq | hlt
        · rw [← heq, hg]; simp
        · exact h4 k hlt hk2

theorem scanEmptyNone (t : List (Option PidEntry)) :
    ∀ (fuel i : Nat), i + fuel ≤ t.length → scanEmpty t i fuel = none →
      ∀ k, i ≤ k → k < i + fuel → t.get? k ≠ some none := by
  intro fuel
  induction fuel with
  | zero => intro i _ _ k hk1 hk2; omega
  | succ n ih =>
    intro i hlen h k hk1 hk2
    simp only [scanEmpty] at h
    obtain ⟨x, hx⟩ := listGetOfLt t i (by omega)
    rw [hx] at h
    cases x with
    | none => exact absurd h (by simp)
    | some e =>
      rcases Nat.eq_or_lt_of_le hk1 with heq | hlt
      · rw [← heq, hx]; simp
      · exact ih (i + 1) (by omega) h k hlt (by omega)

/- ------------------------------------------------------------------ -/
/- Claim theorems: pid table                                          -/
/- ------------------------------------------------------------------ -/

/-- C5 counterexample: a table in which every slot in
`[PID_MIN, PID_MAX]` holds a reaped zombie (parent `PID_INVALID` and
exited) — by the claim each of these slots is reusable, so allocation
should succeed — yet `pid_create` returns the FULL sentinel `-1` and
leaves the table unchanged: the allocator only ever reuses empty
slots. -/
theorem pid_create_ignores_zombies :
    pid_create ⟨List.replicate 256 (some ⟨0, PID_INVALID, 0, true⟩)⟩ 5 =
      (-1, ⟨List.replicate 256 (some ⟨0, PID_INVALID, 0, true⟩)⟩) ∧
    (⟨List.replicate 256 (some ⟨0, PID_INVALID, 0, true⟩)⟩ : PidState).table.get?
        PID_MIN = some (some ⟨0, PID_INVALID, 0, true⟩) := by
  constructor
  · decide
  · decide

/-- C5 (amended): `pid_create(ppid)` scans from `PID_MIN` upward for the
first empty (NULL) slot — zombie entries are never reused and there is
no rolling cursor — and on success installs a fresh entry with
`exited = false` and parent `ppid` at that slot, returning its index;
it returns `-1` exactly when no slot in `[PID_MIN, PID_MAX]` is
empty. -/
theorem pid_create_first_fit (s : PidState) (ppid : Int)
    (hlen : s.table.length = PID_MAX + 1) :
    ∀ r s', pid_create s ppid = (r, s') →
      (r = -1 → s' = s ∧
        ∀ k, PID_MIN ≤ k → k ≤ PID_MAX → s.table.get? k ≠ some none) ∧
      (r ≠ -1 → ∃ i : Nat, r = (i : Int) ∧ PID_MIN ≤ i ∧ i ≤ PID_MAX ∧
        s.table.get? i = some none ∧
        (∀ k, PID_MIN ≤ k → k < i → s.table.get? k ≠ some none) ∧
        s' = ⟨s.table.set i (some ⟨(i : Int), ppid, 0, false⟩)⟩) := by
  have hPM : PID_MIN = 2 := rfl
  have hPX : PID_MAX = 255 := rfl
  intro r s' heq
  unfold pid_create pid_next at heq
  cases hscan : scanEmpty s.table PID_MIN (PID_MAX - PID_MIN + 1) with
  | none =>
    rw [hscan] at heq
    simp at heq
    obtain ⟨hr, hs⟩ := heq
    constructor
    · intro _
      refine ⟨hs.symm, ?_⟩
      intro k hk1 hk2
      have hb : PID_MIN + (PID_MAX - PID_MIN + 1) ≤ s.table.length := by
        rw [hlen]; omega
      exact scanEmptyNone s.table (PID_MAX - PID_MIN + 1) PID_MIN hb hscan k hk1
        (by omega)
    · intro hne; exact absurd hr.symm hne
  | some i =>
    rw [hscan] at heq
    obtain ⟨h1, h2, h3, h4⟩ := scanEmptySome s.table (PID_MAX - PID_MIN + 1)
      PID_MIN i hscan
    have hne : ((i : Int)) ≠ -1 := by omega
    rw [if_neg hne] at heq
    simp at heq
    obtain ⟨hr, hs⟩ := heq
    constructor
    · intro hm; rw [← hr] at hm; exact absurd hm hne
    · intro _
      exact ⟨i, hr.symm, h1, by omega, h3, h4, hs.symm⟩

/-- Concrete pid table for witnesses: slots 2 and 3 occupied by live
processes, everything else free. -/
def cwTable : List (Option PidEntry) :=
  ((List.replicate 256 (none : Option PidEntry)).set 2
    (some ⟨2, 1, 0, false⟩)).set 3 (some ⟨3, 2, 0, false⟩)

/-- The same table after pid 4 is allocated with parent 2. -/
def cwAfter : PidState := ⟨cwTable.set 4 (some ⟨4, 2, 0, false⟩)⟩

/-- C5 witness: on the concrete table the amended theorem yields the
allocation result 4 with the fresh entry installed at slot 4. -/
theorem pid_create_first_fit_witness :
    cwAfter = ⟨cwTable.set 4 (some ⟨(4 : Int), 2, 0, false⟩)⟩ := by
  have h := (pid_create_first_fit ⟨cwTable⟩ 2 (by decide) 4 cwAfter
    (by decide)).2 (by decide)
  obtain ⟨i, hi, _, _, _, _, hset⟩ := h
  have hi4 : i = 4 := by omega
  subst hi4
  exact hset

/-- C4 counterexample: slot 3 holds an exited child of process 2.  A
successful wait destroys the entry outright — the resulting table has a
NULL slot 3, not a retained entry with parent `PID_INVALID` — so the
wait path does free the entry, contrary to the claim. -/
theorem pid_wait_frees_the_entry :
    pid_wait ⟨(List.replicate 256 (none : Option PidEntry)).set 3
        (some ⟨3, 2, 42, true⟩)⟩ 3 2 =
      WRes.ret 0 (some 42)
        ⟨((List.replicate 256 (none : Option PidEntry)).set 3
            (some ⟨3, 2, 42, true⟩)).set 3 none⟩ ∧
    (((List.replicate 256 (none : Option PidEntry)).set 3
        (some ⟨3, 2, 42, true⟩)).set 3 none).get? 3 = some none ∧
    ∀ z : PidEntry,
      (((List.replicate 256 (none : Option PidEntry)).set 3
          (some ⟨3, 2, 42, true⟩)).set 3 none).get? 3 ≠ some (some z) := by
  refine ⟨by decide, by decide, ?_⟩
  intro z h
  have h2 : (((List.replicate 256 (none : Option PidEntry)).set 3
      (some ⟨3, 2, 42, true⟩)).set 3 none).get? 3 = some none := by decide
  rw [h2] at h
  exact Option.noConfusion (Option.some.inj h)

/-- C4 (amended): a successful wait on an exited child marks the parent
field invalid and then immediately destroys the entry via `pid_destroy`,
leaving the slot NULL (other slots untouched); allocation, for its part,
never frees anything — every occupied slot survives `pid_create`
unchanged.  Entries are thus freed by the wait path, not by later
allocations. -/
theorem pid_wait_destroys_entry (s : PidState) (pid : Nat) (ppid : Int)
    (e : PidEntry) (he : s.table.get? pid = some (some e))
    (hp : e.ppid_id = ppid) (hx : e.pid_exited = true) :
    pid_wait s pid ppid = WRes.ret 0 (some e.pid_estatus) ⟨s.table.set pid none⟩ ∧
    (s.table.set pid none).get? pid = some none ∧
    (∀ j, j ≠ pid → (s.table.set pid none).get? j = s.table.get? j) ∧
    (∀ ppid2 : Int, ∀ j : Nat, ∀ ej : PidEntry, s.table.get? j = some (some ej) →
      ((pid_create s ppid2).2).table.get? j = some (some ej)) := by
  refine ⟨?_, ?_, ?_, ?_⟩
  · simp only [pid_wait]
    rw [he]
    simp [hp, hx]
  · exact listGetSetSame s.table pid none (listGetSomeLt s.table pid (some e) he)
  · intro j hj
    exact listGetSetOther s.table pid j none (fun h => hj h.symm)
  · intro ppid2 j ej hj
    unfold pid_create pid_next
    cases hscan : scanEmpty s.table PID_MIN (PID_MAX - PID_MIN + 1) with
    | none => simpa using hj
    | some i =>
      obtain ⟨_, _, hempty, _⟩ := scanEmptySome s.table (PID_MAX - PID_MIN + 1)
        PID_MIN i hscan
      have hne : ((i : Int)) ≠ -1 := by omega
      rw [if_neg hne]
      simp only
      have hij : i ≠ j := by
        intro hc
        rw [hc, hj] at hempty
        exact Option.noConfusion (Option.some.inj hempty)
      have htn : ((i : Int)).toNat = i := by omega
      rw [htn, listGetSetOther s.table i j _ hij]
      exact hj

/-- C4 witness: the amended theorem applied to the concrete table with
an exited child of process 2 in slot 3. -/
theorem pid_wait_destroys_entry_witness :
    pid_wait ⟨(List.replicate 256 (none : Option PidEntry)).set 3
        (some ⟨3, 2, 99, true⟩)⟩ 3 2 =
      WRes.ret 0 (some 99)
        ⟨((List.replicate 256 (none : Option PidEntry)).set 3
            (some ⟨3, 2, 99, true⟩)).set 3 none⟩ :=
  (pid_wait_destroys_entry
    ⟨(List.replicate 256 (none : Option PidEntry)).set 3 (some ⟨3, 2, 99, true⟩)⟩
    3 2 ⟨3, 2, 99, true⟩ (by decide) rfl rfl).1

/-- C9: for an in-range target pid, `pid_wait` returns `ESRCH` on an
empty slot and `ECHILD` when the slot's parent is not the caller, in
both cases returning the table unchanged; when the target is the
caller's child and has exited, the exit status is passed out through
the out-parameter and 0 is returned. -/
theorem pid_wait_paths (s : PidState) (pid : Nat) (ppid : Int)
    (hlo : PID_MIN ≤ pid) (hhi : pid ≤ PID_MAX)
    (hlen : s.table.length = PID_MAX + 1) :
    (s.table.get? pid = some none →
      pid_wait s pid ppid = WRes.ret ESRCH none s) ∧
    (∀ e : PidEntry, s.table.get? pid = some (some e) → e.ppid_id ≠ ppid →
      pid_wait s pid ppid = WRes.ret ECHILD none s) ∧
    (∀ e : PidEntry, s.table.get? pid = some (some e) → e.ppid_id = ppid →
      e.pid_exited = true →
      ∃ s2, pid_wait s pid ppid = WRes.ret 0 (some e.pid_estatus) s2) := by
  refine ⟨?_, ?_, ?_⟩
  · intro h
    simp only [pid_wait]
    rw [h]
  · intro e he hne
    simp only [pid_wait]
    rw [he]
    simp [hne]
  · intro e he hp hx
    refine ⟨⟨s.table.set pid none⟩, ?_⟩
    simp only [pid_wait]
    rw [he]
    simp [hp, hx]

/-- C9 witness: the three paths at concrete tables — empty slot 5 gives
`ESRCH`, a child of process 1 probed by process 9 gives `ECHILD`, and an
exited child of process 2 delivers its status 7. -/
theorem pid_wait_paths_witness :
    pid_wait ⟨(List.replicate 256 (none : Option PidEntry)).set 2
        (some ⟨2, 1, 0, false⟩)⟩ 5 2 =
      WRes.ret ESRCH none ⟨(List.replicate 256 (none : Option PidEntry)).set 2
        (some ⟨2, 1, 0, false⟩)⟩ ∧
    pid_wait ⟨(List.replicate 256 (none : Option PidEntry)).set 2
        (some ⟨2, 1, 0, false⟩)⟩ 2 9 =
      WRes.ret ECHILD none ⟨(List.replicate 256 (none : Option PidEntry)).set 2
        (some ⟨2, 1, 0, false⟩)⟩ ∧
    ∃ s2, pid_wait ⟨(List.replicate 256 (none : Option PidEntry)).set 7
        (some ⟨7, 2, 7, true⟩)⟩ 7 2 = WRes.ret 0 (some 7) s2 := by
  refine ⟨?_, ?_, ?_⟩
  · exact (pid_wait_paths ⟨(List.replicate 256 (none : Option PidEntry)).set 2
      (some ⟨2, 1, 0, false⟩)⟩ 5 2 (by decide) (by decide) (by decide)).1
      (by decide)
  · exact (pid_wait_paths ⟨(List.replicate 256 (none : Option PidEntry)).set 2
      (some ⟨2, 1, 0, false⟩)⟩ 2 9 (by decide) (by decide) (by decide)).2.1
      ⟨2, 1, 0, false⟩ (by decide) (by decide)
  · exact (pid_wait_paths ⟨(List.replicate 256 (none : Option PidEntry)).set 7
      (some ⟨7, 2, 7, true⟩)⟩ 7 2 (by decide) (by decide) (by decide)).2.2
      ⟨7, 2, 7, true⟩ (by decide) rfl rfl

/-- C10: `pid_exit` dereferences the pid-table slot without a NULL
check, so it is well-defined exactly when the slot holds a live entry:
on a live entry the exited flag is set and the status stored, the entry
is kept in place (not freed) and all other slots are untouched; on an
empty slot the embedding takes the NULL-dereference branch (`none`). -/
theorem pid_exit_requires_live_entry (s : PidState) (pid : Nat) (status : Int) :
    (∀ e : PidEntry, s.table.get? pid = some (some e) →
      pid_exit s pid status = some ⟨s.table.set pid
        (some { e with pid_exited := true, pid_estatus := status })⟩ ∧
      (s.table.set pid
        (some { e with pid_exited := true, pid_estatus := status })).get? pid =
        some (some { e with pid_exited := true, pid_estatus := status }) ∧
      (∀ j, j ≠ pid → (s.table.set pid
        (some { e with pid_exited := true, pid_estatus := status })).get? j =
          s.table.get? j)) ∧
    (s.table.get? pid = some none → pid_exit s pid status = none) := by
  constructor
  · intro e he
    refine ⟨?_, ?_, ?_⟩
    · simp only [pid_exit]
      rw [he]
    · exact listGetSetSame s.table pid _ (listGetSomeLt s.table pid (some e) he)
    · intro j hj
      exact listGetSetOther s.table pid j _ (fun h => hj h.symm)
  · intro h
    simp only [pid_exit]
    rw [h]

/-- C10 witness: exiting the live pid 2 with status 9 marks it exited in
place; exiting the empty pid 5 is the NULL dereference. -/
theorem pid_exit_requires_live_entry_witness :
    pid_exit ⟨(List.replicate 256 (none : Option PidEntry)).set 2
        (some ⟨2, 1, 0, false⟩)⟩ 2 9 =
      some ⟨((List.replicate 256 (none : Option PidEntry)).set 2
        (some ⟨2, 1, 0, false⟩)).set 2 (some ⟨2, 1, 9, true⟩)⟩ ∧
    pid_exit ⟨(List.replicate 256 (none : Option PidEntry)).set 2
        (some ⟨2, 1, 0, false⟩)⟩ 5 9 = none := by
  constructor
  · exact ((pid_exit_requires_live_entry ⟨(List.replicate 256
      (none : Option PidEntry)).set 2 (some ⟨2, 1, 0, false⟩)⟩ 2 9).1
      ⟨2, 1, 0, false⟩ (by decide)).1
  · exact (pid_exit_requires_live_entry ⟨(List.replicate 256
      (none : Option PidEntry)).set 2 (some ⟨2, 1, 0, false⟩)⟩ 5 9).2
      (by decide)

/-- C1: whenever `sys_fork` succeeds, the trapframe the child enters
user mode with (via `enter_forked_process`) is the parent's trapframe
with the return-value register `tf_v0` set to 0 — `sys_fork` passes the
literal 0 to `child_execute` through `thread_fork` — and the value
returned to the parent is the child's pid: the pid of the entry freshly
installed for the new process, whose parent is the caller. -/
theorem sys_fork_child_gets_zero (tf : Trapframe) (ps : PidState) (curpid : Int)
    (hlen : ps.table.length = PID_MAX + 1) :
    ∀ r ctf ps', sys_fork tf ps curpid = some (r, ctf, ps') →
      ctf = { tf with tf_v0 := 0 } ∧
      ∃ i : Nat, r = (i : Int) ∧ ps.table.get? i = some none ∧
        ps'.table.get? i = some (some ⟨(i : Int), curpid, 0, false⟩) ∧
        ∀ j, j ≠ i → ps'.table.get? j = ps.table.get? j := by
  intro r ctf ps' heq
  unfold sys_fork proc_create_runprogram pid_create pid_next at heq
  cases hscan : scanEmpty ps.table PID_MIN (PID_MAX - PID_MIN + 1) with
  | none =>
    rw [hscan] at heq
    simp at heq
  | some i =>
    rw [hscan] at heq
    obtain ⟨h1, h2, h3, _⟩ := scanEmptySome ps.table (PID_MAX - PID_MIN + 1)
      PID_MIN i hscan
    have hne : ((i : Int)) ≠ -1 := by omega
    rw [if_neg hne] at heq
    have hnlt : ¬ ((i : Int) < 0) := by omega
    rw [if_neg hnlt] at heq
    simp only [Option.some.injEq, Prod.mk.injEq] at heq
    obtain ⟨hr, hctf, hps⟩ := heq
    have hi : i < ps.table.length := by
      rw [hlen]
      have hPM : PID_MIN = 2 := rfl
      have hPX : PID_MAX = 255 := rfl
      omega
    have htn : ((i : Int)).toNat = i := by omega
    constructor
    · rw [← hctf]
      simp [child_execute]
    · refine ⟨i, ?_, h3, ?_, ?_⟩
      · rw [← hr]; simp
      · rw [← hps]
        simp only [htn]
        exact listGetSetSame ps.table i _ hi
      · intro j hj
        rw [← hps]
        simp only [htn]
        exact listGetSetOther ps.table i j _ (fun h => hj h.symm)

/-- C1 witness: forking from the concrete table with slot 2 occupied
gives the child pid 3, installed with parent 2, and a child trapframe
whose return-value register is 0. -/
theorem sys_fork_child_gets_zero_witness :
    ({ tf_v0 := 0, tf_rest := 42 } : Trapframe) =
      { ({ tf_v0 := 7, tf_rest := 42 } : Trapframe) with tf_v0 := 0 } ∧
    ∃ i : Nat, (3 : Int) = (i : Int) ∧
      (⟨(List.replicate 256 (none : Option PidEntry)).set 2
        (some ⟨2, 1, 0, false⟩)⟩ : PidState).table.get? i = some none ∧
      (⟨((List.replicate 256 (none : Option PidEntry)).set 2
          (some ⟨2, 1, 0, false⟩)).set 3 (some ⟨3, 2, 0, false⟩)⟩ :
        PidState).table.get? i = some (some ⟨(i : Int), 2, 0, false⟩) ∧
      ∀ j, j ≠ i →
        (⟨((List.replicate 256 (none : Option PidEntry)).set 2
            (some ⟨2, 1, 0, false⟩)).set 3 (some ⟨3, 2, 0, false⟩)⟩ :
          PidState).table.get? j =
        (⟨(List.replicate 256 (none : Option PidEntry)).set 2
          (some ⟨2, 1, 0, false⟩)⟩ : PidState).table.get? j :=
  sys_fork_child_gets_zero ⟨7, 42⟩
    ⟨(List.replicate 256 (none : Option PidEntry)).set 2 (some ⟨2, 1, 0, false⟩)⟩
    2 (by decide) 3 ⟨0, 42⟩
    ⟨((List.replicate 256 (none : Option PidEntry)).set 2
      (some ⟨2, 1, 0, false⟩)).set 3 (some ⟨3, 2, 0, false⟩)⟩
    (by decide)

/- ------------------------------------------------------------------ -/
/- Claim theorems: file subsystem                                     -/
/- ------------------------------------------------------------------ -/

/-- Console-like vnode used in concrete states: id 7, seekable, size
10, `VOP_STAT` succeeding. -/
def conVnode : Vnode := ⟨7, true, 10, none⟩

/-- An open file on `conVnode` with refcount 1 and offset 0. -/
def conFile : OpenFile := ⟨conVnode, 0, 1, 0⟩

/-- An all-closed fd table. -/
def emptyFdt : List Int := List.replicate 128 (-1)

/-- One process, fd 0 open on open-file-table slot 0, which points at
heap cell 0 holding `conFile`. -/
def oneOpenState : FileState :=
  ⟨[some conFile],
   (List.replicate 128 (none : Option Nat)).set 0 (some 0),
   [emptyFdt.set 0 0], []⟩

/-- C2: fork copies the fd table verbatim and never touches the
refcount.  From a state satisfying the spec's refcount invariant (one
process, fd 0 referencing an open file with refcount 1), the fork
fd-table copy produces a state violating it: two non-CLOSED entries now
point at slot 0 while the refcount is still 1. -/
theorem sys_fork_skips_refcount_bump :
    refcountOk oneOpenState = true ∧
    refcountOk (sys_fork_fdcopy oneOpenState 0) = false ∧
    (sys_fork_fdcopy oneOpenState 0).heap.get? 0 = some (some conFile) ∧
    conFile.rc = 1 ∧
    fdRefsTo (sys_fork_fdcopy oneOpenState 0) 0 = 2 := by
  refine ⟨by decide, by decide, by decide, rfl, by decide⟩

/-- The same open file with refcount 2 (fds 0 and 5 share it). -/
def twoRefFile : OpenFile := ⟨conVnode, 0, 2, 0⟩

/-- One process, fds 0 and 5 both open on slot 0 (refcount 2). -/
def twoRefState : FileState :=
  ⟨[some twoRefFile],
   (List.replicate 128 (none : Option Nat)).set 0 (some 0),
   [(emptyFdt.set 0 0).set 5 0], []⟩

/-- C3: closing the last descriptor of an open file (refcount 1) does
close the vnode through the VFS and clear the fd entry, but the source
never resets the open-file-table slot to NULL: after the close,
`openfiles[0]` still holds the pointer to the now-freed entry.  With
refcount 2 the close just decrements the refcount. -/
theorem file_close_keeps_slot :
    (file_close oneOpenState 0 0).map (fun r => r.1) = some 0 ∧
    (file_close oneOpenState 0 0).map (fun r => r.2.closed) = some [7] ∧
    (file_close oneOpenState 0 0).map (fun r => r.2.heap) = some [none] ∧
    (file_close oneOpenState 0 0).map (fun r => r.2.openfiles.get? 0) =
      some (some (some 0)) ∧
    (file_close oneOpenState 0 0).map
      (fun r => (r.2.fdts.get? 0).map (fun t => t.get? 0)) =
      some (some (some (-1))) ∧
    (file_close twoRefState 0 0).map (fun r => (r.1, r.2.heap, r.2.closed)) =
      some (0, [some ⟨conVnode, 0, 1, 0⟩], []) := by
  refine ⟨by decide, by decide, by decide, by decide, by decide, by decide⟩

/-- The argv of `execv("/p", ["/p", "x", "yy"])` as byte strings. -/
def execArgs : List (List Nat) := [[47, 112], [120], [121, 121]]

/-- C6: serializing `execv("/p", ["/p", "x", "yy"])` onto a user stack
topped at 0x80000000 stores, at decreasing addresses: the null
terminator word at -4; the bytes of "yy\0" at -7..-5, "x\0" at -9..-8,
"/p\0" at -12..-10; (the strings end 4-byte aligned, so no padding) the
null pointer word at -16; the pointer to "yy" at -20, to "x" at -24,
to "/p" at -28; the argv register is -28, the address holding the
pointer to "/p", and argc is 3. -/
theorem execv_argv_layout :
    (sys_execv_stack execArgs 2147483648).2.1 = 3 ∧
    lookupWord (sys_execv_stack execArgs 2147483648).1 2147483644 = some 0 ∧
    lookupByte (sys_execv_stack execArgs 2147483648).1 2147483641 = some 121 ∧
    lookupByte (sys_execv_stack execArgs 2147483648).1 2147483642 = some 121 ∧
    lookupByte (sys_execv_stack execArgs 2147483648).1 2147483643 = some 0 ∧
    lookupByte (sys_execv_stack execArgs 2147483648).1 2147483639 = some 120 ∧
    lookupByte (sys_execv_stack execArgs 2147483648).1 2147483640 = some 0 ∧
    lookupByte (sys_execv_stack execArgs 2147483648).1 2147483636 = some 47 ∧
    lookupByte (sys_execv_stack execArgs 2147483648).1 2147483637 = some 112 ∧
    lookupByte (sys_execv_stack execArgs 2147483648).1 2147483638 = some 0 ∧
    lookupWord (sys_execv_stack execArgs 2147483648).1 2147483632 = some 0 ∧
    lookupWord (sys_execv_stack execArgs 2147483648).1 2147483628 =
      some 2147483641 ∧
    lookupWord (sys_execv_stack execArgs 2147483648).1 2147483624 =
      some 2147483639 ∧
    lookupWord (sys_execv_stack execArgs 2147483648).1 2147483620 =
      some 2147483636 ∧
    (sys_execv_stack execArgs 2147483648).2.2.1 = 2147483620 := by
  refine ⟨rfl, by decide, by decide, by decide, by decide, by decide, by decide,
    by decide, by decide, by decide, by decide, by decide, by decide, by decide,
    rfl⟩

/-- C7 counterexample: with fd 0 open on a seekable file at offset 0,
`lseek(0, 2^31, SEEK_SET)` has a nonnegative tentative offset, so by
the claim it must succeed returning 2^31 — but the offset field is a
32-bit `int`, the stored value wraps negative, and the call returns
`EINVAL` with the state unchanged. -/
theorem sys_lseek_truncates :
    sys_lseek oneOpenState 0 0 2147483648 SEEK_SET =
      some (EINVAL, none, oneOpenState) ∧
    (0 : Int) ≤ 2147483648 := by
  refine ⟨by decide, by decide⟩

/-- C7 (amended): for an open descriptor, `sys_lseek` returns `EINVAL`
for a whence outside {SEEK_SET, SEEK_CUR, SEEK_END}, `ESPIPE` (for any
valid whence) when the vnode is not seekable, and otherwise computes
the target — `pos` for SET, `offset + pos` for CUR, and `pos` plus the
`VOP_STAT` size for END — stores it into the 32-bit `int` offset field
(truncating), and on a negative stored value restores the prior offset
(state unchanged) and returns `EINVAL`; on success it returns the new
(truncated) offset. -/
theorem sys_lseek_checks (s : FileState) (p : Nat) (t : List Int) (fd : Nat)
    (slot ptr : Nat) (f : OpenFile)
    (hfd : fd < OPEN_MAX)
    (ht : s.fdts.get? p = some t)
    (hslot : t.get? fd = some ((slot : Nat) : Int))
    (hsl : slot < OPEN_MAX)
    (hptr : s.openfiles.get? slot = some (some ptr))
    (hf : s.heap.get? ptr = some (some f)) :
    (∀ w pos : Int, w ≠ SEEK_SET → w ≠ SEEK_CUR → w ≠ SEEK_END →
      sys_lseek s p (fd : Int) pos w = some (EINVAL, none, s)) ∧
    (f.vn.seekable = false → ∀ pos : Int,
      sys_lseek s p (fd : Int) pos SEEK_SET = some (ESPIPE, none, s) ∧
      sys_lseek s p (fd : Int) pos SEEK_CUR = some (ESPIPE, none, s) ∧
      sys_lseek s p (fd : Int) pos SEEK_END = some (ESPIPE, none, s)) ∧
    (f.vn.seekable = true → ∀ pos : Int,
      (toInt32 pos < 0 →
        sys_lseek s p (fd : Int) pos SEEK_SET = some (EINVAL, none, s)) ∧
      (0 ≤ toInt32 pos →
        sys_lseek s p (fd : Int) pos SEEK_SET = some (0, some (toInt32 pos),
          { s with heap := s.heap.set ptr (some { f with os := toInt32 pos }) })) ∧
      (toInt32 (f.os + pos) < 0 →
        sys_lseek s p (fd : Int) pos SEEK_CUR = some (EINVAL, none, s)) ∧
      (0 ≤ toInt32 (f.os + pos) →
        sys_lseek s p (fd : Int) pos SEEK_CUR =
          some (0, some (toInt32 (f.os + pos)),
            { s with heap := (s.heap.set ptr
                (some { f with os := toInt32 (f.os + pos) })) })) ∧
      (f.vn.statErr = none → toInt32 (pos + f.vn.size) < 0 →
        sys_lseek s p (fd : Int) pos SEEK_END = some (EINVAL, none, s)) ∧
      (f.vn.statErr = none → 0 ≤ toInt32 (pos + f.vn.size) →
        sys_lseek s p (fd : Int) pos SEEK_END =
          some (0, some (toInt32 (pos + f.vn.size)),
            { s with heap := (s.heap.set ptr
                (some { f with os := toInt32 (pos + f.vn.size) })) }))) := by
  have hOM : OPEN_MAX = 128 := rfl
  have hc1 : ¬((fd : Int) < 0 ∨ (OPEN_MAX : Int) ≤ (fd : Int)) := by
    push_cast
    omega
  have htn : ((fd : Int)).toNat = fd := by omega
  have hncl : ((slot : Nat) : Int) ≠ FILE_CLOSED := by
    simp only [FILE_CLOSED]
    omega
  have hc2 : ¬(((slot : Nat) : Int) < 0 ∨ (OPEN_MAX : Int) ≤ ((slot : Nat) : Int)) := by
    push_cast
    omega
  have hstn : (((slot : Nat) : Int)).toNat = slot := by omega
  refine ⟨?_, ?_, ?_⟩
  · intro w pos hw1 hw2 hw3
    simp only [sys_lseek, if_neg hc1]
    rw [if_pos ⟨hw1, hw2, hw3⟩]
  · intro hsk pos
    refine ⟨?_, ?_, ?_⟩ <;>
    · simp only [sys_lseek, if_neg hc1]
      rw [if_neg (by decide)]
      simp only [ht, htn, hslot, if_neg hncl, if_neg hc2, hstn, hptr, hf]
      rw [if_pos hsk]
  · intro hsk pos
    have hnsk : ¬(f.vn.seekable = false) := by simp [hsk]
    refine ⟨?_, ?_, ?_, ?_, ?_, ?_⟩
    · intro hneg
      simp only [sys_lseek, if_neg hc1]
      rw [if_neg (by decide)]
      simp only [ht, htn, hslot, if_neg hncl, if_neg hc2, hstn, hptr, hf,
        if_neg hnsk]
      rw [if_neg (by decide : ¬(SEEK_SET = SEEK_END))]
      simp only [eq_self_iff_true, ite_true]
      rw [if_pos hneg]
    · intro hpos
      simp only [sys_lseek, if_neg hc1]
      rw [if_neg (by decide)]
      simp only [ht, htn, hslot, if_neg hncl, if_neg hc2, hstn, hptr, hf,
        if_neg hnsk]
      rw [if_neg (by decide : ¬(SEEK_SET = SEEK_END))]
      simp only [eq_self_iff_true, ite_true]
      rw [if_neg (by omega : ¬(toInt32 pos < 0))]
    · intro hneg
      simp only [sys_lseek, if_neg hc1]
      rw [if_neg (by decide)]
      simp only [ht, htn, hslot, if_neg hncl, if_neg hc2, hstn, hptr, hf,
        if_neg hnsk]
      rw [if_neg (by decide : ¬(SEEK_CUR = SEEK_END))]
      rw [if_neg (by decide : ¬(SEEK_CUR = SEEK_SET))]
      simp only [eq_self_iff_true, ite_true]
      rw [if_pos hneg]
    · intro hpos
      simp only [sys_lseek, if_neg hc1]
      rw [if_neg (by decide)]
      simp only [ht, htn, hslot, if_neg hncl, if_neg hc2, hstn, hptr, hf,
        if_neg hnsk]
      rw [if_neg (by decide : ¬(SEEK_CUR = SEEK_END))]
      rw [if_neg (by decide : ¬(SEEK_CUR = SEEK_SET))]
      simp only [eq_self_iff_true, ite_true]
      rw [if_neg (by omega : ¬(toInt32 (f.os + pos) < 0))]
    · intro hstat hneg
      simp only [sys_lseek, if_neg hc1]
      rw [if_neg (by decide)]
      simp only [ht, htn, hslot, if_neg hncl, if_neg hc2, hstn, hptr, hf,
        if_neg hnsk]
      simp only [eq_self_iff_true, ite_true, hstat]
      rw [if_neg (by decide : ¬(SEEK_END = SEEK_SET))]
      rw [if_neg (by decide : ¬(SEEK_END = SEEK_CUR))]
      rw [if_pos hneg]
    · intro hstat hpos
      simp only [sys_lseek, if_neg hc1]
      rw [if_neg (by decide)]
      simp only [ht, htn, hslot, if_neg hncl, if_neg hc2, hstn, hptr, hf,
        if_neg hnsk]
      simp only [eq_self_iff_true, ite_true, hstat]
      rw [if_neg (by decide : ¬(SEEK_END = SEEK_SET))]
      rw [if_neg (by decide : ¬(SEEK_END = SEEK_CUR))]
      rw [if_neg (by omega : ¬(toInt32 (pos + f.vn.size) < 0))]

/-- A console-like device vnode: not seekable. -/
def devVnode : Vnode := ⟨9, false, 0, none⟩

/-- An open file on the device vnode. -/
def devFile : OpenFile := ⟨devVnode, 0, 1, 0⟩

/-- One process with fd 0 open on the unseekable device. -/
def devState : FileState :=
  ⟨[some devFile],
   (List.replicate 128 (none : Option Nat)).set 0 (some 0),
   [emptyFdt.set 0 0], []⟩

/-- C7 witness: whence 5 on an open fd gives `EINVAL`; `SEEK_CUR` on the
console device gives `ESPIPE`; `SEEK_END` with pos 3 on the size-10 file
succeeds with the new offset 13. -/
theorem sys_lseek_checks_witness :
    sys_lseek oneOpenState 0 ((0 : Nat) : Int) 0 5 =
      some (EINVAL, none, oneOpenState) ∧
    sys_lseek devState 0 ((0 : Nat) : Int) 0 SEEK_CUR =
      some (ESPIPE, none, devState) ∧
    sys_lseek oneOpenState 0 ((0 : Nat) : Int) 3 SEEK_END =
      some (0, some (toInt32 (3 + conFile.vn.size)),
        { oneOpenState with heap := (oneOpenState.heap.set 0
            (some { conFile with os := toInt32 (3 + conFile.vn.size) })) }) := by
  refine ⟨?_, ?_, ?_⟩
  · exact (sys_lseek_checks oneOpenState 0 (emptyFdt.set 0 0) 0 0 0 conFile
      (by decide) (by decide) (by decide) (by decide) (by decide) (by decide)).1
      5 0 (by decide) (by decide) (by decide)
  · exact ((sys_lseek_checks devState 0 (emptyFdt.set 0 0) 0 0 0 devFile
      (by decide) (by decide) (by decide) (by decide) (by decide) (by decide)).2.1
      rfl 0).2.1
  · exact ((sys_lseek_checks oneOpenState 0 (emptyFdt.set 0 0) 0 0 0 conFile
      (by decide) (by decide) (by decide) (by decide) (by decide)
      (by decide)).2.2 rfl 3).2.2.2.2.2 rfl (by decide)

/-- Symbolic evaluation of `file_close` on an open descriptor: the fd
entry is cleared and either (refcount 1) the vnode is vfs-closed and
the heap cell freed — with the `openfiles` slot left holding the stale
pointer — or the refcount is decremented. -/
theorem fileCloseOpen (s : FileState) (p : Nat) (t : List Int)
    (fd slot ptr : Nat) (f : OpenFile)
    (hfd : fd < OPEN_MAX) (ht : s.fdts.get? p = some t)
    (hslot : t.get? fd = some ((slot : Nat) : Int)) (hsl : slot < OPEN_MAX)
    (hptr : s.openfiles.get? slot = some (some ptr))
    (hf : s.heap.get? ptr = some (some f)) :
    file_close s p ((fd : Nat) : Int) =
      if f.rc = 1 then
        some (0, { s with
          fdts := (s.fdts.set p (t.set fd FILE_CLOSED)),
          closed := s.closed ++ [f.vn.id],
          heap := (s.heap.set ptr none) })
      else
        some (0, { s with
          fdts := (s.fdts.set p (t.set fd FILE_CLOSED)),
          heap := (s.heap.set ptr (some { f with rc := f.rc - 1 })) }) := by
  have hOM : OPEN_MAX = 128 := rfl
  have hc1 : ¬((fd : Int) < 0 ∨ (OPEN_MAX : Int) ≤ (fd : Int)) := by
    push_cast
    omega
  have htn : ((fd : Int)).toNat = fd := by omega
  have hc2 : ¬(((slot : Nat) : Int) < 0 ∨ ((slot : Nat) : Int) > (OPEN_MAX : Int)) := by
    push_cast
    omega
  have hc3 : ¬(((slot : Nat) : Int) = (OPEN_MAX : Int)) := by
    push_cast
    omega
  have hstn : (((slot : Nat) : Int)).toNat = slot := by omega
  simp only [file_close, if_neg hc1, ht, htn, hslot, if_neg hc2, if_neg hc3,
    hstn, hptr, hf]


/-- C8: `sys_dup2` returns `EBADF` when either descriptor is out of
range; equal in-range descriptors give back `newfd` with the state
untouched; a `CLOSED` `oldfd` gives `EBADF`; otherwise the open file
referenced by `oldfd` has its refcount bumped by one, `newfd` is closed
first when it was open — decrementing (or, at refcount 1, vfs-closing
and freeing) the file it referenced, with no net refcount change when
both descriptors shared the same open file — and `fd_entries[newfd]`
is assigned `fd_entries[oldfd]`, returning `newfd`. -/
theorem sys_dup2_spec (s : FileState) (p : Nat) (t : List Int)
    (slot ptr : Nat) (f : OpenFile)
    (ht : s.fdts.get? p = some t)
    (hlen : t.length = OPEN_MAX)
    (hrc : 1 ≤ f.rc) :
    (∀ ofd nfd : Int,
      (ofd < 0 ∨ (OPEN_MAX : Int) ≤ ofd ∨ nfd < 0 ∨ (OPEN_MAX : Int) ≤ nfd) →
      sys_dup2 s p ofd nfd = some (EBADF, none, s)) ∧
    (∀ fd : Nat, fd < OPEN_MAX →
      sys_dup2 s p ((fd : Nat) : Int) ((fd : Nat) : Int) =
        some (0, some ((fd : Nat) : Int), s)) ∧
    (∀ oldfd newfd : Nat, oldfd < OPEN_MAX → newfd < OPEN_MAX → oldfd ≠ newfd →
      t.get? oldfd = some FILE_CLOSED →
      sys_dup2 s p ((oldfd : Nat) : Int) ((newfd : Nat) : Int) =
        some (EBADF, some ((newfd : Nat) : Int), s)) ∧
    (∀ oldfd newfd : Nat, oldfd < OPEN_MAX → newfd < OPEN_MAX → oldfd ≠ newfd →
      t.get? oldfd = some ((slot : Nat) : Int) → slot < OPEN_MAX →
      s.openfiles.get? slot = some (some ptr) →
      s.heap.get? ptr = some (some f) →
      ((t.get? newfd = some FILE_CLOSED →
        sys_dup2 s p ((oldfd : Nat) : Int) ((newfd : Nat) : Int) =
          some (0, some ((newfd : Nat) : Int),
            { s with heap := (s.heap.set ptr (some { f with rc := f.rc + 1 })),
                     fdts := (s.fdts.set p (t.set newfd ((slot : Nat) : Int))) })) ∧
      (∀ slot2 : Nat, t.get? newfd = some ((slot2 : Nat) : Int) →
        slot2 < OPEN_MAX → s.openfiles.get? slot2 = some (some ptr) →
        sys_dup2 s p ((oldfd : Nat) : Int) ((newfd : Nat) : Int) =
          some (0, some ((newfd : Nat) : Int),
            { s with fdts := (s.fdts.set p (t.set newfd ((slot : Nat) : Int))) })) ∧
      (∀ slot2 ptr2 : Nat, ∀ g : OpenFile,
        t.get? newfd = some ((slot2 : Nat) : Int) → slot2 < OPEN_MAX →
        s.openfiles.get? slot2 = some (some ptr2) → ptr2 ≠ ptr →
        s.heap.get? ptr2 = some (some g) →
        (g.rc = 1 →
          sys_dup2 s p ((oldfd : Nat) : Int) ((newfd : Nat) : Int) =
            some (0, some ((newfd : Nat) : Int),
              { s with
                heap := ((s.heap.set ptr (some { f with rc := f.rc + 1 })).set
                  ptr2 none),
                fdts := (s.fdts.set p (t.set newfd ((slot : Nat) : Int))),
                closed := s.closed ++ [g.vn.id] })) ∧
        (g.rc ≠ 1 →
          sys_dup2 s p ((oldfd : Nat) : Int) ((newfd : Nat) : Int) =
            some (0, some ((newfd : Nat) : Int),
              { s with
                heap := ((s.heap.set ptr (some { f with rc := f.rc + 1 })).set
                  ptr2 (some { g with rc := g.rc - 1 })),
                fdts := (s.fdts.set p (t.set newfd ((slot : Nat) : Int))) }))))) := by
  have hOM : OPEN_MAX = 128 := rfl
  refine ⟨?_, ?_, ?_, ?_⟩
  · intro ofd nfd hbad
    simp only [sys_dup2, if_pos hbad]
  · intro fd hfd
    have hc : ¬((fd : Int) < 0 ∨ (OPEN_MAX : Int) ≤ (fd : Int) ∨
        (fd : Int) < 0 ∨ (OPEN_MAX : Int) ≤ (fd : Int)) := by
      push_cast
      omega
    simp only [sys_dup2, if_neg hc, eq_self_iff_true, ite_true]
  · intro oldfd newfd hofd hnfd hne hcl
    have hc : ¬((oldfd : Int) < 0 ∨ (OPEN_MAX : Int) ≤ (oldfd : Int) ∨
        (newfd : Int) < 0 ∨ (OPEN_MAX : Int) ≤ (newfd : Int)) := by
      push_cast
      omega
    have hne2 : ¬((oldfd : Int) = (newfd : Int)) := by
      push_cast
      omega
    have hotn : ((oldfd : Int)).toNat = oldfd := by omega
    have hntn : ((newfd : Int)).toNat = newfd := by omega
    obtain ⟨nv, hnv⟩ := listGetOfLt t newfd (by omega)
    simp only [sys_dup2, if_neg hc, if_neg hne2, ht, hotn, hntn, hcl, hnv,
      eq_self_iff_true, ite_true]
  · intro oldfd newfd hofd hnfd hne hold hsl hptr hf
    have hc : ¬((oldfd : Int) < 0 ∨ (OPEN_MAX : Int) ≤ (oldfd : Int) ∨
        (newfd : Int) < 0 ∨ (OPEN_MAX : Int) ≤ (newfd : Int)) := by
      push_cast
      omega
    have hne2 : ¬((oldfd : Int) = (newfd : Int)) := by
      push_cast
      omega
    have hotn : ((oldfd : Int)).toNat = oldfd := by omega
    have hntn : ((newfd : Int)).toNat = newfd := by omega
    have hncl : ¬(((slot : Nat) : Int) = FILE_CLOSED) := by
      simp only [FILE_CLOSED]
      omega
    have hrange : ¬(((slot : Nat) : Int) < 0 ∨
        (OPEN_MAX : Int) ≤ ((slot : Nat) : Int)) := by
      push_cast
      omega
    have hstn : (((slot : Nat) : Int)).toNat = slot := by omega
    have hplen : p < s.fdts.length := listGetSomeLt s.fdts p t ht
    have hptrlen : ptr < s.heap.length := listGetSomeLt s.heap ptr (some f) hf
    refine ⟨?_, ?_, ?_⟩
    · intro hnew
      simp only [sys_dup2, if_neg hc, if_neg hne2, ht, hotn, hntn, hold, hnew,
        if_neg hncl, if_neg hrange, hstn, hptr, hf, FILE_CLOSED, reduceIte,
        ne_eq, not_true_eq_false]
      rw [if_neg (by omega : ¬((slot : Nat) : Int) = -1)]
    · intro slot2 hnew hsl2 hptr2
      have hncl2 : ((slot2 : Nat) : Int) ≠ FILE_CLOSED := by
        simp only [FILE_CLOSED]
        omega
      simp only [sys_dup2, if_neg hc, if_neg hne2, ht, hotn, hntn, hold, hnew,
        if_neg hncl, if_neg hrange, hstn, hptr, hf, ne_eq, hncl2,
        not_false_eq_true, ite_true]
      rw [fileCloseOpen { s with heap := (s.heap.set ptr
            (some { f with rc := f.rc + 1 })) } p t newfd slot2 ptr
          { f with rc := f.rc + 1 } hnfd ht hnew hsl2 hptr2
          (listGetSetSame s.heap ptr _ hptrlen)]
      have hrcne : ¬(({ f with rc := f.rc + 1 } : OpenFile).rc = 1) := by
        simp only
        omega
      rw [if_neg hrcne]
      simp only [listGetSetSame s.fdts p _ hplen,
        listGetSetOther t newfd oldfd _ (fun h => hne h.symm), hold,
        listSetSetSame]
      have hfeq : ({ { f with rc := f.rc + 1 } with
          rc := ({ f with rc := f.rc + 1 } : OpenFile).rc - 1 } : OpenFile) = f := by
        simp only
        have : f.rc + 1 - 1 = f.rc := by ring
        rw [this]
      rw [hfeq, listSetOfGet s.heap ptr (some f) hf]
    · intro slot2 ptr2 g hnew hsl2 hptr2 hpne hg
      have hncl2 : ((slot2 : Nat) : Int) ≠ FILE_CLOSED := by
        simp only [FILE_CLOSED]
        omega
      have hgS : ({ s with heap := (s.heap.set ptr
          (some { f with rc := f.rc + 1 })) } : FileState).heap.get? ptr2 =
          some (some g) := by
        simp only
        rw [listGetSetOther s.heap ptr ptr2 _ (fun h => hpne h.symm)]
        exact hg
      refine ⟨?_, ?_⟩
      · intro hg1
        simp only [sys_dup2, if_neg hc, if_neg hne2, ht, hotn, hntn, hold, hnew,
          if_neg hncl, if_neg hrange, hstn, hptr, hf, ne_eq, hncl2,
          not_false_eq_true, ite_true]
        rw [fileCloseOpen { s with heap := (s.heap.set ptr
              (some { f with rc := f.rc + 1 })) } p t newfd slot2 ptr2 g hnfd
            ht hnew hsl2 hptr2 hgS]
        rw [if_pos hg1]
        simp only [listGetSetSame s.fdts p _ hplen,
          listGetSetOther t newfd oldfd _ (fun h => hne h.symm), hold,
          listSetSetSame]
      · intro hgne
        simp only [sys_dup2, if_neg hc, if_neg hne2, ht, hotn, hntn, hold, hnew,
          if_neg hncl, if_neg hrange, hstn, hptr, hf, ne_eq, hncl2,
          not_false_eq_true, ite_true]
        rw [fileCloseOpen { s with heap := (s.heap.set ptr
              (some { f with rc := f.rc + 1 })) } p t newfd slot2 ptr2 g hnfd
            ht hnew hsl2 hptr2 hgS]
        rw [if_neg hgne]
        simp only [listGetSetSame s.fdts p _ hplen,
          listGetSetOther t newfd oldfd _ (fun h => hne h.symm), hold,
          listSetSetSame]

/-- C8 witness: duplicating open fd 0 onto closed fd 5 bumps the
refcount to 2 and points entry 5 at slot 0; on the aliased state where
fds 0 and 5 already share the open file, `dup2(0, 5)` leaves the
refcount at 2 (bump then close cancel out). -/
theorem sys_dup2_spec_witness :
    sys_dup2 oneOpenState 0 ((0 : Nat) : Int) ((5 : Nat) : Int) =
      some (0, some ((5 : Nat) : Int),
        { oneOpenState with
          heap := (oneOpenState.heap.set 0
            (some { conFile with rc := conFile.rc + 1 })),
          fdts := (oneOpenState.fdts.set 0
            ((emptyFdt.set 0 0).set 5 ((0 : Nat) : Int))) }) ∧
    sys_dup2 twoRefState 0 ((0 : Nat) : Int) ((5 : Nat) : Int) =
      some (0, some ((5 : Nat) : Int),
        { twoRefState with
          fdts := (twoRefState.fdts.set 0
            (((emptyFdt.set 0 0).set 5 0).set 5 ((0 : Nat) : Int))) }) := by
  constructor
  · exact ((sys_dup2_spec oneOpenState 0 (emptyFdt.set 0 0) 0 0 conFile
      (by decide) (by decide) (by decide)).2.2.2 0 5 (by decide) (by decide)
      (by decide) (by decide) (by decide) (by decide) (by decide)).1 (by decide)
  · exact (((sys_dup2_spec twoRefState 0 ((emptyFdt.set 0 0).set 5 0) 0 0
      twoRefFile (by decide) (by decide) (by decide)).2.2.2 0 5 (by decide)
      (by decide) (by decide) (by decide) (by decide) (by decide)
      (by decide)).2.1 0 (by decide) (by decide) (by decide))
